import Mathlib

/-!
Verification of the execfs FUSE file system (src/fileops.c) against its
natural-language specification.

The C source is shallowly embedded below.  Global mutable state (the entry
table `entries`, the mount identity `uid`/`gid`, the configured `size`) is
passed explicitly; the ambient FUSE context (caller uid/gid) is an explicit
`Principal` argument; C library calls whose outcome depends on the operating
system (`popen`, `fread`, `fwrite`, `fflush`, `fsync`, the readdir `filler`)
are modelled by explicit oracle arguments recording the value the call
returned.  Machine integers are modelled by `Nat`/`Int`; all FUSE handlers
return their C `int` result, using the negated errno convention of the
source (`-2` = -ENOENT, `-13` = -EACCES, `-9` = -EBADF, `-1` for the local
assert macro's failure return).
-/

/-- One configured entry of the file system: a path (stored without the
leading separator), the backing shell command, and nine permission bits
(owner/group/other times read/write/execute).  Mirrors `entry_t` from
entry.h as used by src/fileops.c. -/
structure entry_t where
  path : String
  command : String
  u_r : Bool
  u_w : Bool
  u_x : Bool
  g_r : Bool
  g_w : Bool
  g_x : Bool
  o_r : Bool
  o_w : Bool
  o_x : Bool
deriving Repr, DecidableEq

/-- The caller identity delivered by `fuse_get_context()`: the uid and gid of
the process issuing the request. -/
structure Principal where
  uid : Nat
  gid : Nat
deriving Repr, DecidableEq

/-- Whether this path is the root of the mount point
(src/fileops.c:43-45: `!strcmp("/", path)`). -/
def is_root (path : String) : Bool :=
  path = "/"

/-- Linear scan of the entry table (src/fileops.c:52-65).  A path whose first
character is not the separator is rejected; otherwise `path + 1` (the path
with its first character removed) is compared by exact string equality
(`strcmp`) against each entry's stored path, first match wins. -/
def find_entry (entries : List entry_t) (path : String) : Option entry_t :=
  match path.data with
  | [] => none
  | c :: rest =>
    if c = '/' then entries.find? (fun e => decide (e.path.data = rest)) else none

/-- Permission-bit values of src/fileops.c:35-38: R = 1<<2, W = 1<<1, X = 1<<0. -/
def R_BIT : Nat := 4

/-- Write-permission bit (1 << 1). -/
def W_BIT : Nat := 2

/-- Execute-permission bit (1 << 0). -/
def X_BIT : Nat := 1

/-- Effective rights of the calling principal on an entry
(src/fileops.c:70-88): the owner bit triple if the caller's uid equals the
mount uid, else the group triple if the caller's gid equals the mount gid,
else the other triple. -/
def access_rights (muid mgid : Nat) (ctx : Principal) (e : entry_t) : Nat :=
  if ctx.uid = muid then
    (if e.u_r then R_BIT else 0) ||| (if e.u_w then W_BIT else 0) |||
      (if e.u_x then X_BIT else 0)
  else if ctx.gid = mgid then
    (if e.g_r then R_BIT else 0) ||| (if e.g_w then W_BIT else 0) |||
      (if e.g_x then X_BIT else 0)
  else
    (if e.o_r then R_BIT else 0) ||| (if e.o_w then W_BIT else 0) |||
      (if e.o_x then X_BIT else 0)

/-- Open-flag accessor mode O_RDONLY (= 0 on Linux). -/
def O_RDONLY : Nat := 0

/-- Open-flag accessor mode O_WRONLY (= 1 on Linux). -/
def O_WRONLY : Nat := 1

/-- Open-flag accessor mode O_RDWR (= 2 on Linux). -/
def O_RDWR : Nat := 2

/-- The open handler (src/fileops.c:179-207).  Resolution failure yields
-ENOENT; the requested accessor mode is `flags & RIGHTS_MASK` with
RIGHTS_MASK = 0x3; a read request (O_RDONLY or O_RDWR) without the R bit, or
a write request (O_WRONLY or O_RDWR) without the W bit, yields -EACCES.
Otherwise the entry's command is spawned with `popen`, modelled by the
oracle `spawnOk`: a NULL return (spawnOk = false) yields -EBADF, success
yields 0. -/
def exec_open (entries : List entry_t) (muid mgid : Nat) (ctx : Principal)
    (path : String) (flags : Nat) (spawnOk : Bool) : Int :=
  match find_entry entries path with
  | none => -2
  | some e =>
    let entry_rights := access_rights muid mgid ctx e
    let rights := flags % 4
    if ((rights = O_RDONLY ∨ rights = O_RDWR) ∧ entry_rights &&& R_BIT = 0) ∨
        ((rights = O_WRONLY ∨ rights = O_RDWR) ∧ entry_rights &&& W_BIT = 0) then
      -13
    else if spawnOk then 0 else -9

/-- Conversion of a C `size_t` value to a C `int` (the return statement of
exec_read and exec_write returns a `size_t` local from an `int` function):
reduce modulo 2^32 and reinterpret in two's complement. -/
def c_int_of_size_t (n : Nat) : Int :=
  if n % 2 ^ 32 < 2 ^ 31 then ((n % 2 ^ 32 : Nat) : Int)
  else ((n % 2 ^ 32 : Nat) : Int) - 2 ^ 32

/-- The read handler (src/fileops.c:209-222).  `fread` is modelled by an
oracle: `freadRet` is the count it returned (by fread's contract at most the
requested `size`, and never `(size_t)-1`) and `err` records whether an
OS-level error was flagged on the backing stream during the call.  The
comparison `sz == -1` at line 216 compares the count against `(size_t)-1`
and can never hold, so it selects a log message only; the handler returns
`(int)sz` on every path, for success and failure alike. -/
def exec_read (size freadRet : Nat) (err : Bool) : Int :=
  c_int_of_size_t freadRet

/-- The write handler (src/fileops.c:247-260).  `fwrite` is modelled by an
oracle exactly as `fread` is in `exec_read`: `fwriteRet` is the count of
bytes the stream accepted and `err` records an OS-level failure (e.g. the
child exited and broke the pipe).  The `sz == -1` comparison at line 254 can
never hold and selects a log message only; the handler returns `(int)sz` on
every path. -/
def exec_write (size fwriteRet : Nat) (err : Bool) : Int :=
  c_int_of_size_t fwriteRet

/-- The readdir loop body (src/fileops.c:230-235) with the `filler` callback
modelled by its remaining buffer capacity: each call to `filler` either
stores one name and succeeds, or fails (returns nonzero) once the capacity
is exhausted, upon which the loop returns immediately.  The result is the
list of names actually delivered to the filler successfully. -/
def readdir_fill (l : List entry_t) (cap : Nat) : List String :=
  match l, cap with
  | [], _ => []
  | _ :: _, 0 => []
  | e :: rest, c + 1 => e.path :: readdir_fill rest c

/-- The readdir handler (src/fileops.c:224-237).  A non-root path yields
-EBADF (subdirectories are unsupported); on root the loop runs from
`offset` over the entry table, feeding each stored path to the filler until
the table or the filler's capacity is exhausted, and returns 0 either way.
The second component is the sequence of names delivered to the filler. -/
def exec_readdir (entries : List entry_t) (path : String) (offset cap : Nat) :
    Int × List String :=
  if is_root path = false then (-9, [])
  else (0, readdir_fill (entries.drop offset) cap)

/-- The attributes reported by `exec_getattr`, the fields of `struct stat`
that src/fileops.c:129-177 assigns (the ignored fields are omitted). -/
structure StatBuf where
  st_uid : Nat
  st_gid : Nat
  st_atime : Nat
  st_mtime : Nat
  st_ctime : Nat
  st_mode : Nat
  st_size : Nat
  st_nlink : Nat
deriving Repr, DecidableEq

/-- The getattr handler (src/fileops.c:129-177).  `muid`/`mgid` are the
mount identity, `sizeG` the globally configured size constant, `now` the
wall-clock time returned by `time(NULL)`, and `stbuf` the incoming stat
buffer (whose unassigned fields pass through).  Owner and timestamps are
assigned first; then root reports a directory with mode 0555, size 0 and one
link; a resolved entry reports a regular file carrying its nine stored
permission bits, the configured size and one link; any other path yields
-ENOENT.  No caller identity is consulted anywhere. -/
def exec_getattr (entries : List entry_t) (muid mgid sizeG now : Nat)
    (path : String) (stbuf : StatBuf) : Int × StatBuf :=
  let s1 : StatBuf :=
    { stbuf with
        st_uid := muid
        st_gid := mgid
        st_atime := now
        st_mtime := now
        st_ctime := now }
  if is_root path then
    (0, { s1 with
            st_mode := 0o40000 ||| 0o400 ||| 0o100 ||| 0o40 ||| 0o10 ||| 0o4 ||| 0o1
            st_size := 0
            st_nlink := 1 })
  else
    match find_entry entries path with
    | none => (-2, s1)
    | some e =>
      (0, { s1 with
              st_mode := 0o100000 |||
                (if e.u_r then 0o400 else 0) ||| (if e.u_w then 0o200 else 0) |||
                (if e.u_x then 0o100 else 0) |||
                (if e.g_r then 0o40 else 0) ||| (if e.g_w then 0o20 else 0) |||
                (if e.g_x then 0o10 else 0) |||
                (if e.o_r then 0o4 else 0) ||| (if e.o_w then 0o2 else 0) |||
                (if e.o_x then 0o1 else 0)
              st_size := sizeG
              st_nlink := 1 })

/-- The flush handler (src/fileops.c:95-108).  Root succeeds immediately
without touching any stream; an unresolvable path yields -ENOENT; otherwise
the local assert macro checks the file info and handle are non-null
(returning -1 on violation) and the result of `fflush` on the backing
stream — modelled by the oracle `flushRet` — is returned.  `fi` is the
handle stored by open (`none` models a NULL `fuse_file_info`). -/
def exec_flush (entries : List entry_t) (path : String) (fi : Option Nat)
    (flushRet : Int) : Int :=
  if is_root path then 0
  else
    match find_entry entries path with
    | none => -2
    | some _ =>
      match fi with
      | none => -1
      | some fh => if fh = 0 then -1 else flushRet

/-- The fsync handler (src/fileops.c:110-123): identical to `exec_flush`
except that it takes the datasync hint (unused) and forwards to `fsync` on
the stream's descriptor, modelled by the oracle `fsyncRet`. -/
def exec_fsync (entries : List entry_t) (path : String) (datasync : Int)
    (fi : Option Nat) (fsyncRet : Int) : Int :=
  if is_root path then 0
  else
    match find_entry entries path with
    | none => -2
    | some _ =>
      match fi with
      | none => -1
      | some fh => if fh = 0 then -1 else fsyncRet

/-- Body shared by every FAIL_STUB handler (src/fileops.c:263-267): log and
return -EACCES on every path.  The entry table is threaded through to make
explicit that no stub touches it. -/
def fail_stub (entries : List entry_t) (path : String) : Int × List entry_t :=
  (-13, entries)

/-- Body shared by every NOP_STUB handler (src/fileops.c:268-275): -ENOENT
when the path resolves to neither root nor an entry, otherwise succeed
doing nothing. -/
def nop_stub (entries : List entry_t) (path : String) : Int :=
  if is_root path = false ∧ find_entry entries path = none then -2 else 0

/-- FAIL_STUB(bmap) (src/fileops.c:276). -/
def exec_bmap (entries : List entry_t) (path : String) (blocksize : Nat) :
    Int × List entry_t :=
  fail_stub entries path

/-- FAIL_STUB(chmod) (src/fileops.c:277). -/
def exec_chmod (entries : List entry_t) (path : String) (mode : Nat) :
    Int × List entry_t :=
  fail_stub entries path

/-- FAIL_STUB(chown) (src/fileops.c:278). -/
def exec_chown (entries : List entry_t) (path : String) (u g : Nat) :
    Int × List entry_t :=
  fail_stub entries path

/-- NOP_STUB(fsyncdir) (src/fileops.c:279). -/
def exec_fsyncdir (entries : List entry_t) (path : String) (datasync : Int)
    (fi : Option Nat) : Int :=
  nop_stub entries path

/-- FAIL_STUB(link) (src/fileops.c:280). -/
def exec_link (entries : List entry_t) (path target : String) :
    Int × List entry_t :=
  fail_stub entries path

/-- FAIL_STUB(mkdir) (src/fileops.c:281). -/
def exec_mkdir (entries : List entry_t) (path : String) (mode : Nat) :
    Int × List entry_t :=
  fail_stub entries path

/-- FAIL_STUB(mknod) (src/fileops.c:282). -/
def exec_mknod (entries : List entry_t) (path : String) (mode dev : Nat) :
    Int × List entry_t :=
  fail_stub entries path

/-- FAIL_STUB(readlink) (src/fileops.c:283). -/
def exec_readlink (entries : List entry_t) (path : String) (size : Nat) :
    Int × List entry_t :=
  fail_stub entries path

/-- NOP_STUB(releasedir) (src/fileops.c:284). -/
def exec_releasedir (entries : List entry_t) (path : String)
    (fi : Option Nat) : Int :=
  nop_stub entries path

/-- FAIL_STUB(removexattr) (src/fileops.c:285). -/
def exec_removexattr (entries : List entry_t) (path name : String) :
    Int × List entry_t :=
  fail_stub entries path

/-- FAIL_STUB(rename) (src/fileops.c:286). -/
def exec_rename (entries : List entry_t) (path new_name : String) :
    Int × List entry_t :=
  fail_stub entries path

/-- FAIL_STUB(rmdir) (src/fileops.c:287). -/
def exec_rmdir (entries : List entry_t) (path : String) : Int × List entry_t :=
  fail_stub entries path

/-- FAIL_STUB(setxattr) (src/fileops.c:288). -/
def exec_setxattr (entries : List entry_t) (path name value : String)
    (flags : Nat) : Int × List entry_t :=
  fail_stub entries path

/-- FAIL_STUB(symlink) (src/fileops.c:289). -/
def exec_symlink (entries : List entry_t) (path target : String) :
    Int × List entry_t :=
  fail_stub entries path

/-- NOP_STUB(truncate) (src/fileops.c:290). -/
def exec_truncate (entries : List entry_t) (path : String) (size : Nat) : Int :=
  nop_stub entries path

/-- FAIL_STUB(unlink) (src/fileops.c:291). -/
def exec_unlink (entries : List entry_t) (path : String) : Int × List entry_t :=
  fail_stub entries path

/-- NOP_STUB(utime) (src/fileops.c:292). -/
def exec_utime (entries : List entry_t) (path : String) (times : Nat × Nat) :
    Int :=
  nop_stub entries path

/-- NOP_STUB(utimens) (src/fileops.c:293). -/
def exec_utimens (entries : List entry_t) (path : String)
    (times : Nat × Nat) : Int :=
  nop_stub entries path

/-- Result of resolving a request path: the mount root, a configured entry,
or nothing. -/
inductive Resolution where
  | Root : Resolution
  | Ent : entry_t → Resolution
  | NotFound : Resolution
deriving Repr, DecidableEq

/-- Path resolution as every handler performs it (the `is_root` check of
src/fileops.c:43-45 followed by the `find_entry` scan of
src/fileops.c:52-65, in that order, exactly as in exec_getattr
src/fileops.c:148-156 and the NOP_STUB bodies). -/
def resolve (entries : List entry_t) (path : String) : Resolution :=
  if is_root path then Resolution.Root
  else
    match find_entry entries path with
    | some e => Resolution.Ent e
    | none => Resolution.NotFound

/-- A sample configured entry used to instantiate theorems on concrete
inputs: path "hello", owner rights r-x, group rights rw-, other rights --x. -/
def eHello : entry_t :=
  ⟨"hello", "echo hello", true, false, true, true, true, false, false, false, true⟩

/-!  Helper lemmas. -/

/-- Characterisation of `List.find?` as the first match: it returns `some a`
exactly when `a` sits at some position `i`, satisfies the predicate, and
every element strictly before position `i` fails the predicate. -/
lemma find?_first_match {α : Type} (p : α → Bool) (l : List α) (a : α) :
    l.find? p = some a ↔
      ∃ i : Fin l.length, l.get i = a ∧ p a = true ∧
        ∀ j : Fin l.length, (j : Nat) < (i : Nat) → p (l.get j) = false := by
  induction l with
  | nil => simp [List.find?]
  | cons x xs ih =>
    by_cases hx : p x
    · rw [List.find?_cons_of_pos _ hx]
      constructor
      · intro h
        injection h with h
        subst h
        exact ⟨⟨0, Nat.succ_pos _⟩, rfl, hx, fun j hj => absurd hj (Nat.not_lt_zero _)⟩
      · rintro ⟨⟨i, hi⟩, hget, hpa, hfirst⟩
        match i, hi with
        | 0, _ => exact congrArg some hget.symm ▸ rfl
        | k + 1, hk =>
          have h0 := hfirst ⟨0, Nat.succ_pos _⟩ (Nat.succ_pos _)
          exact absurd h0 (by simp [hx])
    · have hx' : p x = false := by simpa using hx
      rw [List.find?_cons_of_neg _ hx, ih]
      constructor
      · rintro ⟨⟨i, hi⟩, hget, hpa, hfirst⟩
        refine ⟨⟨i + 1, Nat.succ_lt_succ hi⟩, hget, hpa, ?_⟩
        rintro ⟨j, hj⟩ hlt
        match j, hj with
        | 0, _ => exact hx'
        | k + 1, hk =>
          exact hfirst ⟨k, Nat.lt_of_succ_lt_succ hk⟩ (Nat.lt_of_succ_lt_succ hlt)
      · rintro ⟨⟨i, hi⟩, hget, hpa, hfirst⟩
        match i, hi with
        | 0, _ =>
          rw [show (x :: xs).get ⟨0, by omega⟩ = x from rfl] at hget
          subst hget
          exact absurd hpa (by simp [hx'])
        | k + 1, hk =>
          refine ⟨⟨k, Nat.lt_of_succ_lt_succ hk⟩, hget, hpa, ?_⟩
          rintro ⟨j, hj⟩ hlt
          exact hfirst ⟨j + 1, Nat.succ_lt_succ hj⟩ (Nat.succ_lt_succ hlt)

/-- The rights value computed by `access_rights` carries the selected read
bit: masking with R recovers the read bit of whichever triple the
uid/gid rules selected. -/
lemma access_rights_and_R (muid mgid : Nat) (ctx : Principal) (e : entry_t) :
    access_rights muid mgid ctx e &&& R_BIT =
      (if (if ctx.uid = muid then e.u_r else if ctx.gid = mgid then e.g_r else e.o_r)
        then R_BIT else 0) := by
  unfold access_rights R_BIT W_BIT X_BIT
  split
  · cases e.u_r <;> cases e.u_w <;> cases e.u_x <;> decide
  · split
    · cases e.g_r <;> cases e.g_w <;> cases e.g_x <;> decide
    · cases e.o_r <;> cases e.o_w <;> cases e.o_x <;> decide

/-- Masking the computed rights with W recovers the selected write bit. -/
lemma access_rights_and_W (muid mgid : Nat) (ctx : Principal) (e : entry_t) :
    access_rights muid mgid ctx e &&& W_BIT =
      (if (if ctx.uid = muid then e.u_w else if ctx.gid = mgid then e.g_w else e.o_w)
        then W_BIT else 0) := by
  unfold access_rights R_BIT W_BIT X_BIT
  split
  · cases e.u_r <;> cases e.u_w <;> cases e.u_x <;> decide
  · split
    · cases e.g_r <;> cases e.g_w <;> cases e.g_x <;> decide
    · cases e.o_r <;> cases e.o_w <;> cases e.o_x <;> decide

/-- A map over the entry table that preserves stored paths commutes with
`find_entry`. -/
lemma find_entry_map (f : entry_t → entry_t) (hf : ∀ e, (f e).path = e.path)
    (entries : List entry_t) (path : String) :
    find_entry (entries.map f) path = (find_entry entries path).map f := by
  unfold find_entry
  match path.data with
  | [] => rfl
  | c :: rest =>
    by_cases hc : c = '/'
    · dsimp only
      rw [if_pos hc, if_pos hc, List.find?_map]
      have hp : ((fun e => decide (e.path.data = rest)) ∘ f) =
          (fun e : entry_t => decide (e.path.data = rest)) := by
        funext e
        simp [Function.comp, hf e]
      rw [hp]
    · dsimp only
      rw [if_neg hc, if_neg hc]
      rfl

/-- Resolution yields Root exactly on the root designator. -/
lemma resolve_root_iff (entries : List entry_t) (path : String) :
    resolve entries path = Resolution.Root ↔ path = "/" := by
  unfold resolve
  by_cases hp : path = "/"
  · subst hp
    rw [if_pos (by decide)]
    simp
  · have h : ¬ (is_root path = true) := by
      unfold is_root
      simpa using hp
    rw [if_neg h]
    cases find_entry entries path <;> simp [hp]

/-- Resolution yields an entry exactly when the path is not root and the
table scan finds that entry. -/
lemma resolve_ent_iff (entries : List entry_t) (path : String) (e : entry_t) :
    resolve entries path = Resolution.Ent e ↔
      path ≠ "/" ∧ find_entry entries path = some e := by
  unfold resolve
  by_cases hp : path = "/"
  · subst hp
    rw [if_pos (by decide)]
    simp
  · have h : ¬ (is_root path = true) := by
      unfold is_root
      simpa using hp
    rw [if_neg h]
    cases hf : find_entry entries path <;> simp [hp]

/-- Resolution yields NotFound exactly when the path is not root and the
table scan fails. -/
lemma resolve_notfound_iff (entries : List entry_t) (path : String) :
    resolve entries path = Resolution.NotFound ↔
      path ≠ "/" ∧ find_entry entries path = none := by
  unfold resolve
  by_cases hp : path = "/"
  · subst hp
    rw [if_pos (by decide)]
    simp
  · have h : ¬ (is_root path = true) := by
      unfold is_root
      simpa using hp
    rw [if_neg h]
    cases hf : find_entry entries path <;> simp [hp]

/-- The table scan finds `e` exactly when the path starts with the
separator and `e` is the first entry whose stored path equals the
remainder. -/
lemma find_entry_eq_some_iff (entries : List entry_t) (path : String)
    (e : entry_t) :
    find_entry entries path = some e ↔
      ∃ rest, path.data = '/' :: rest ∧
        ∃ i : Fin entries.length, entries.get i = e ∧ e.path.data = rest ∧
          ∀ j : Fin entries.length, (j : Nat) < (i : Nat) →
            (entries.get j).path.data ≠ rest := by
  unfold find_entry
  cases hd : path.data with
  | nil => simp
  | cons c rest =>
    by_cases hc : c = '/'
    · subst hc
      dsimp only
      rw [if_pos rfl, find?_first_match]
      constructor
      · rintro ⟨i, hget, hpa, hfirst⟩
        refine ⟨rest, rfl, i, hget, by simpa using hpa, ?_⟩
        intro j hj
        simpa using hfirst j hj
      · rintro ⟨rest', hrest, i, hget, hpa, hfirst⟩
        injection hrest with h1 h2
        subst h2
        exact ⟨i, hget, by simpa using hpa,
          fun j hj => by simpa using hfirst j hj⟩
    · dsimp only
      rw [if_neg hc]
      constructor
      · intro h
        exact absurd h (by simp)
      · rintro ⟨rest', hrest, -⟩
        injection hrest with h1 h2
        exact absurd h1 hc

/-!  Claim theorems. -/

/-- C2: for every entry and principal, the computed access rights equal the
entry's owner triple when the caller's uid equals the mount uid (whatever
the gid), the group triple when the uid differs and the gid equals the
mount gid, and the other triple when both differ — all four
(uid-match × gid-match) combinations. -/
theorem access_rights_cases (muid mgid : Nat) (ctx : Principal) (e : entry_t) :
    (ctx.uid = muid ∧ ctx.gid = mgid →
      access_rights muid mgid ctx e =
        ((if e.u_r then R_BIT else 0) ||| (if e.u_w then W_BIT else 0) |||
          (if e.u_x then X_BIT else 0))) ∧
    (ctx.uid = muid ∧ ctx.gid ≠ mgid →
      access_rights muid mgid ctx e =
        ((if e.u_r then R_BIT else 0) ||| (if e.u_w then W_BIT else 0) |||
          (if e.u_x then X_BIT else 0))) ∧
    (ctx.uid ≠ muid ∧ ctx.gid = mgid →
      access_rights muid mgid ctx e =
        ((if e.g_r then R_BIT else 0) ||| (if e.g_w then W_BIT else 0) |||
          (if e.g_x then X_BIT else 0))) ∧
    (ctx.uid ≠ muid ∧ ctx.gid ≠ mgid →
      access_rights muid mgid ctx e =
        ((if e.o_r then R_BIT else 0) ||| (if e.o_w then W_BIT else 0) |||
          (if e.o_x then X_BIT else 0))) := by
  refine ⟨fun h => ?_, fun h => ?_, fun h => ?_, fun h => ?_⟩ <;>
    unfold access_rights <;> simp [h.1, h.2]

/-- Witness for C2: with mount identity (1, 2), a caller (3, 2) matches on
gid only and receives the sample entry's group triple. -/
theorem access_rights_cases_witness :
    access_rights 1 2 ⟨3, 2⟩ eHello =
      ((if eHello.g_r then R_BIT else 0) ||| (if eHello.g_w then W_BIT else 0) |||
        (if eHello.g_x then X_BIT else 0)) :=
  (access_rights_cases 1 2 ⟨3, 2⟩ eHello).2.2.1 ⟨by decide, by decide⟩

/-- C3: resolution returns Root exactly on the single root designator; a
path not beginning with the separator resolves to NotFound; any other path
resolves to the first entry, in registry order, whose stored path equals
the request path with the leading separator removed, and to NotFound when
no entry matches. -/
theorem resolve_cases (entries : List entry_t) (path : String) :
    (resolve entries path = Resolution.Root ↔ path = "/") ∧
    (path.data.head? ≠ some '/' → resolve entries path = Resolution.NotFound) ∧
    (∀ rest, path.data = '/' :: rest → path ≠ "/" →
      ((∀ e, resolve entries path = Resolution.Ent e ↔
          ∃ i : Fin entries.length, entries.get i = e ∧ e.path.data = rest ∧
            ∀ j : Fin entries.length, (j : Nat) < (i : Nat) →
              (entries.get j).path.data ≠ rest) ∧
        ((∀ e ∈ entries, e.path.data ≠ rest) →
          resolve entries path = Resolution.NotFound))) := by
  refine ⟨resolve_root_iff entries path, ?_, ?_⟩
  · intro hhead
    rw [resolve_notfound_iff]
    constructor
    · intro h
      subst h
      exact hhead (by decide)
    · unfold find_entry
      cases hd : path.data with
      | nil => rfl
      | cons c rest =>
        rw [hd] at hhead
        have hc : c ≠ '/' := fun h => hhead (by simp [h])
        dsimp only
        rw [if_neg hc]
  · intro rest hpath hne
    constructor
    · intro e
      rw [resolve_ent_iff, find_entry_eq_some_iff]
      constructor
      · rintro ⟨-, rest', hr', hex⟩
        rw [hpath] at hr'
        injection hr' with h1 h2
        subst h2
        exact hex
      · intro hex
        exact ⟨hne, rest, hpath, hex⟩
    · intro hall
      rw [resolve_notfound_iff]
      refine ⟨hne, ?_⟩
      unfold find_entry
      rw [hpath]
      dsimp only
      rw [if_pos rfl, List.find?_eq_none]
      intro x hx
      simpa using hall x hx

/-- Witness for C3: a path without a leading separator resolves to
NotFound. -/
theorem resolve_cases_witness :
    resolve [eHello] "hello" = Resolution.NotFound :=
  (resolve_cases [eHello] "hello").2.1 (by decide)

/-- C1: with the spawn oracle held successful, open succeeds exactly when
the path resolves to an entry whose computed rights cover the bits implied
by the requested accessor mode (read bit for O_RDONLY/O_RDWR, write bit
for O_WRONLY/O_RDWR); an unresolvable path yields -ENOENT whatever the
spawn outcome; any failure of the check is -EACCES or -ENOENT; and the
three execute bits never influence the result of open. -/
theorem exec_open_access_check (entries : List entry_t) (muid mgid : Nat)
    (ctx : Principal) (path : String) (flags : Nat)
    (hmode : flags % 4 = O_RDONLY ∨ flags % 4 = O_WRONLY ∨ flags % 4 = O_RDWR) :
    (exec_open entries muid mgid ctx path flags true = 0 ↔
      ∃ e, find_entry entries path = some e ∧
        ((flags % 4 = O_RDONLY ∨ flags % 4 = O_RDWR) →
          access_rights muid mgid ctx e &&& R_BIT ≠ 0) ∧
        ((flags % 4 = O_WRONLY ∨ flags % 4 = O_RDWR) →
          access_rights muid mgid ctx e &&& W_BIT ≠ 0)) ∧
    (find_entry entries path = none →
      ∀ spawnOk, exec_open entries muid mgid ctx path flags spawnOk = -2) ∧
    (exec_open entries muid mgid ctx path flags true ≠ 0 →
      exec_open entries muid mgid ctx path flags true = -13 ∨
      exec_open entries muid mgid ctx path flags true = -2) ∧
    (∀ bu bg bo spawnOk,
      exec_open (entries.map fun e => { e with u_x := bu, g_x := bg, o_x := bo })
          muid mgid ctx path flags spawnOk =
        exec_open entries muid mgid ctx path flags spawnOk) := by
  refine ⟨?_, ?_, ?_, ?_⟩
  · unfold exec_open
    cases hf : find_entry entries path with
    | none =>
      dsimp only
      constructor
      · intro h
        exact absurd h (by decide)
      · rintro ⟨e, he, -⟩
        exact absurd he (by simp)
    | some e =>
      dsimp only
      by_cases hC : ((flags % 4 = O_RDONLY ∨ flags % 4 = O_RDWR) ∧
            access_rights muid mgid ctx e &&& R_BIT = 0) ∨
          ((flags % 4 = O_WRONLY ∨ flags % 4 = O_RDWR) ∧
            access_rights muid mgid ctx e &&& W_BIT = 0)
      · rw [if_pos hC]
        constructor
        · intro h
          exact absurd h (by decide)
        · rintro ⟨e', he', hR, hW⟩
          injection he' with he'
          subst he'
          rcases hC with ⟨hm, hz⟩ | ⟨hm, hz⟩
          · exact absurd hz (hR hm)
          · exact absurd hz (hW hm)
      · rw [if_neg hC]
        rw [not_or] at hC
        obtain ⟨h1, h2⟩ := hC
        constructor
        · intro _
          exact ⟨e, rfl, fun hm h0 => h1 ⟨hm, h0⟩, fun hm h0 => h2 ⟨hm, h0⟩⟩
        · intro _
          decide
  · intro hf spawnOk
    unfold exec_open
    rw [hf]
  · unfold exec_open
    cases hf : find_entry entries path with
    | none =>
      intro _
      right
      rfl
    | some e =>
      dsimp only
      split
      · intro _
        left
        rfl
      · intro h
        exact absurd (by decide) h
  · intro bu bg bo spawnOk
    unfold exec_open
    rw [find_entry_map (fun e => { e with u_x := bu, g_x := bg, o_x := bo })
      (fun e => rfl) entries path]
    cases hf : find_entry entries path with
    | none => rfl
    | some e =>
      dsimp only [Option.map]
      have hR : access_rights muid mgid ctx
            { e with u_x := bu, g_x := bg, o_x := bo } &&& R_BIT =
          access_rights muid mgid ctx e &&& R_BIT := by
        rw [access_rights_and_R, access_rights_and_R]
      have hW : access_rights muid mgid ctx
            { e with u_x := bu, g_x := bg, o_x := bo } &&& W_BIT =
          access_rights muid mgid ctx e &&& W_BIT := by
        rw [access_rights_and_W, access_rights_and_W]
      simp only [hR, hW]

/-- Witness for C1: a read-only open of the sample entry by the mount
owner (who holds the read bit) succeeds. -/
theorem exec_open_access_check_witness :
    exec_open [eHello] 0 0 ⟨0, 0⟩ "/hello" 0 true = 0 :=
  (exec_open_access_check [eHello] 0 0 ⟨0, 0⟩ "/hello" 0 (Or.inl rfl)).1.mpr
    ⟨eHello, by decide⟩

/-- Helper: the readdir loop delivers the first `cap` names of the listed
entries, in order. -/
lemma readdir_fill_eq (l : List entry_t) (cap : Nat) :
    readdir_fill l cap = (l.map (fun e => e.path)).take cap := by
  induction l generalizing cap with
  | nil => cases cap <;> rfl
  | cons e rest ih =>
    cases cap with
    | zero => rfl
    | succ c =>
      show e.path :: readdir_fill rest c = e.path :: (rest.map (fun e => e.path)).take c
      rw [ih]

/-- C4 (code-bug evidence): an OS-level failure on the backing stream is
never surfaced by read.  When the stream fails after delivering 0 bytes
(fread returns count 0 with the stream's error flag set), exec_read returns
0 — indistinguishable from a clean end-of-stream — and not -EIO (-5); a
failure after a 512-byte partial delivery is likewise reported as a plain
512-byte success. -/
theorem exec_read_error_swallowed :
    exec_read 4096 0 true = 0 ∧ exec_read 4096 0 true ≠ -5 ∧
      exec_read 65536 512 true = 512 := by
  refine ⟨by decide, by decide, by decide⟩

/-- C5 (code-bug evidence): an OS-level failure on the backing stream is
never surfaced by write.  When the child has exited and broken the pipe so
that the stream accepts 0 of 5 bytes with its error flag set, exec_write
returns 0 — a plain zero-byte success — and not -EIO (-5). -/
theorem exec_write_error_swallowed :
    exec_write 5 0 true = 0 ∧ exec_write 5 0 true ≠ -5 ∧
      exec_write 5 3 true = 3 := by
  refine ⟨by decide, by decide, by decide⟩

/-- Counterexample for C6: list on a non-root path (here a path that even
resolves to an entry) returns -EBADF (-9, bad file descriptor) and not
the NotADirectory error -ENOTDIR (-20) the claim names. -/
theorem exec_readdir_nonroot_not_notadir :
    (exec_readdir [eHello] "/hello" 0 10).1 = -9 ∧
      (exec_readdir [eHello] "/hello" 0 10).1 ≠ -20 := by
  refine ⟨by decide, by decide⟩

/-- C6 (amended): list on a non-root path fails with -EBADF (bad file
descriptor); list on root from start index `offset` delivers the stored
paths of the configured entries from `offset` onward, in registry order,
cut off at the filler's capacity; with enough capacity it delivers exactly
the suffix from `offset` — so from 0, every entry exactly once. -/
theorem exec_readdir_paging (entries : List entry_t) (path : String)
    (offset cap : Nat) :
    (is_root path = false → exec_readdir entries path offset cap = (-9, [])) ∧
    (exec_readdir entries "/" offset cap =
      (0, ((entries.drop offset).map (fun e => e.path)).take cap)) ∧
    ((entries.drop offset).length ≤ cap →
      exec_readdir entries "/" offset cap =
        (0, (entries.drop offset).map (fun e => e.path))) := by
  refine ⟨?_, ?_, ?_⟩
  · intro h
    unfold exec_readdir
    rw [if_pos h]
  · unfold exec_readdir
    rw [if_neg (by decide), readdir_fill_eq]
  · intro hlen
    unfold exec_readdir
    rw [if_neg (by decide), readdir_fill_eq,
      List.take_of_length_le (by simpa using hlen)]

/-- Witness for C6 (amended): listing root of a one-entry table from index
0 with ample capacity yields exactly that entry's path. -/
theorem exec_readdir_paging_witness :
    exec_readdir [eHello] "/" 0 5 = (0, ["hello"]) :=
  (exec_readdir_paging [eHello] "/" 0 5).2.2 (by decide)

/-- Helper: the file mode assembled for a resolved entry is in the
regular-file class and each of the nine permission bits of the platform
layout is set exactly when the corresponding stored bit is. -/
lemma entry_mode_bits (e : entry_t) :
    (0o100000 |||
        (if e.u_r then 0o400 else 0) ||| (if e.u_w then 0o200 else 0) |||
        (if e.u_x then 0o100 else 0) |||
        (if e.g_r then 0o40 else 0) ||| (if e.g_w then 0o20 else 0) |||
        (if e.g_x then 0o10 else 0) |||
        (if e.o_r then 0o4 else 0) ||| (if e.o_w then 0o2 else 0) |||
        (if e.o_x then 0o1 else 0)) &&& 0o170000 = 0o100000 ∧
    ((0o100000 |||
        (if e.u_r then 0o400 else 0) ||| (if e.u_w then 0o200 else 0) |||
        (if e.u_x then 0o100 else 0) |||
        (if e.g_r then 0o40 else 0) ||| (if e.g_w then 0o20 else 0) |||
        (if e.g_x then 0o10 else 0) |||
        (if e.o_r then 0o4 else 0) ||| (if e.o_w then 0o2 else 0) |||
        (if e.o_x then 0o1 else 0)) % 512 =
      (if e.u_r then 0o400 else 0) + (if e.u_w then 0o200 else 0) +
        (if e.u_x then 0o100 else 0) +
        (if e.g_r then 0o40 else 0) + (if e.g_w then 0o20 else 0) +
        (if e.g_x then 0o10 else 0) +
        (if e.o_r then 0o4 else 0) + (if e.o_w then 0o2 else 0) +
        (if e.o_x then 0o1 else 0)) := by
  obtain ⟨p, c, ur, uw, ux, gr, gw, gx, orb, owb, oxb⟩ := e
  dsimp only
  cases ur <;> cases uw <;> cases ux <;> cases gr <;> cases gw <;> cases gx <;>
    cases orb <;> cases owb <;> cases oxb <;> decide

/-- C7: getattr reports for root a directory (mode class S_IFDIR) with
permission bits 0555 (read+execute for all three classes), one link and
the mount identity as owner; for a path resolving to an entry a regular
file (mode class S_IFREG) whose nine permission bits are exactly the
entry's stored bits, one link, the mount identity as owner — no caller
identity is consulted — and the globally configured size; and for an
unresolvable path it fails with -ENOENT. -/
theorem exec_getattr_attributes (entries : List entry_t)
    (muid mgid sizeG now : Nat) (path : String) (stbuf : StatBuf) :
    (path = "/" →
      (exec_getattr entries muid mgid sizeG now path stbuf).1 = 0 ∧
      (exec_getattr entries muid mgid sizeG now path stbuf).2.st_mode &&& 0o170000
          = 0o40000 ∧
      (exec_getattr entries muid mgid sizeG now path stbuf).2.st_mode % 512
          = 0o555 ∧
      (exec_getattr entries muid mgid sizeG now path stbuf).2.st_nlink = 1 ∧
      (exec_getattr entries muid mgid sizeG now path stbuf).2.st_uid = muid ∧
      (exec_getattr entries muid mgid sizeG now path stbuf).2.st_gid = mgid) ∧
    (∀ e, resolve entries path = Resolution.Ent e →
      (exec_getattr entries muid mgid sizeG now path stbuf).1 = 0 ∧
      (exec_getattr entries muid mgid sizeG now path stbuf).2.st_mode &&& 0o170000
          = 0o100000 ∧
      (exec_getattr entries muid mgid sizeG now path stbuf).2.st_mode % 512 =
        (if e.u_r then 0o400 else 0) + (if e.u_w then 0o200 else 0) +
          (if e.u_x then 0o100 else 0) +
          (if e.g_r then 0o40 else 0) + (if e.g_w then 0o20 else 0) +
          (if e.g_x then 0o10 else 0) +
          (if e.o_r then 0o4 else 0) + (if e.o_w then 0o2 else 0) +
          (if e.o_x then 0o1 else 0) ∧
      (exec_getattr entries muid mgid sizeG now path stbuf).2.st_size = sizeG ∧
      (exec_getattr entries muid mgid sizeG now path stbuf).2.st_nlink = 1 ∧
      (exec_getattr entries muid mgid sizeG now path stbuf).2.st_uid = muid ∧
      (exec_getattr entries muid mgid sizeG now path stbuf).2.st_gid = mgid) ∧
    (resolve entries path = Resolution.NotFound →
      (exec_getattr entries muid mgid sizeG now path stbuf).1 = -2) := by
  refine ⟨?_, ?_, ?_⟩
  · intro hp
    subst hp
    simp only [exec_getattr]
    rw [if_pos (by decide)]
    dsimp only
    exact ⟨rfl, by decide, by decide, rfl, rfl, rfl⟩
  · intro e hres
    rw [resolve_ent_iff] at hres
    obtain ⟨hne, hf⟩ := hres
    have hroot : ¬ (is_root path = true) := by
      unfold is_root
      simpa using hne
    simp only [exec_getattr]
    rw [if_neg hroot, hf]
    dsimp only
    exact ⟨rfl, (entry_mode_bits e).1, (entry_mode_bits e).2, rfl, rfl, rfl, rfl⟩
  · intro hres
    rw [resolve_notfound_iff] at hres
    obtain ⟨hne, hf⟩ := hres
    have hroot : ¬ (is_root path = true) := by
      unfold is_root
      simpa using hne
    simp only [exec_getattr]
    rw [if_neg hroot, hf]

/-- Witness for C7: getattr on the root of a one-entry table succeeds. -/
theorem exec_getattr_attributes_witness :
    (exec_getattr [eHello] 5 6 42 7 "/" ⟨0, 0, 0, 0, 0, 0, 0, 0⟩).1 = 0 :=
  ((exec_getattr_attributes [eHello] 5 6 42 7 "/" ⟨0, 0, 0, 0, 0, 0, 0, 0⟩).1
    rfl).1

/-- C8: flush and fsync are no-ops on root (succeeding without consulting
any stream oracle), fail with -ENOENT when the path resolves to neither
root nor an entry, and otherwise return exactly what the backing stream
operation returned; apart from the datasync hint the two handlers compute
the identical function. -/
theorem exec_flush_fsync_contract (entries : List entry_t) (path : String)
    (datasync flushRet fsyncRet : Int) (fi : Option Nat) :
    (path = "/" →
      exec_flush entries path fi flushRet = 0 ∧
      exec_fsync entries path datasync fi fsyncRet = 0) ∧
    (path ≠ "/" → find_entry entries path = none →
      exec_flush entries path fi flushRet = -2 ∧
      exec_fsync entries path datasync fi fsyncRet = -2) ∧
    (∀ e fh, path ≠ "/" → find_entry entries path = some e → fh ≠ 0 →
      exec_flush entries path (some fh) flushRet = flushRet ∧
      exec_fsync entries path datasync (some fh) fsyncRet = fsyncRet) ∧
    (∀ r, exec_fsync entries path datasync fi r =
      exec_flush entries path fi r) := by
  refine ⟨?_, ?_, ?_, ?_⟩
  · intro hp
    subst hp
    constructor
    · unfold exec_flush
      rw [if_pos (by decide)]
    · unfold exec_fsync
      rw [if_pos (by decide)]
  · intro hne hf
    have hroot : ¬ (is_root path = true) := by
      unfold is_root
      simpa using hne
    constructor
    · unfold exec_flush
      rw [if_neg hroot, hf]
    · unfold exec_fsync
      rw [if_neg hroot, hf]
  · intro e fh hne hf hfh
    have hroot : ¬ (is_root path = true) := by
      unfold is_root
      simpa using hne
    constructor
    · unfold exec_flush
      rw [if_neg hroot, hf]
      dsimp only
      rw [if_neg hfh]
    · unfold exec_fsync
      rw [if_neg hroot, hf]
      dsimp only
      rw [if_neg hfh]
  · intro r
    rfl

/-- Witness for C8: flushing an open handle on a resolved entry forwards
the backing stream's result. -/
theorem exec_flush_fsync_contract_witness :
    exec_flush [eHello] "/hello" (some 3) 7 = 7 :=
  ((exec_flush_fsync_contract [eHello] "/hello" 0 7 0 (some 3)).2.2.1 eHello 3
    (by decide) (by decide) (by decide)).1

/-- C9: every structural mutation handler — links, special files,
directories, removal, rename, owner/permission changes, extended
attributes — fails with -EACCES (permission denied) on every path and
every argument, and leaves the entry table unchanged. -/
theorem mutation_stubs_fail (entries : List entry_t)
    (path target name value : String) (mode dev u g flags : Nat) :
    exec_chmod entries path mode = (-13, entries) ∧
    exec_chown entries path u g = (-13, entries) ∧
    exec_link entries path target = (-13, entries) ∧
    exec_symlink entries path target = (-13, entries) ∧
    exec_mknod entries path mode dev = (-13, entries) ∧
    exec_mkdir entries path mode = (-13, entries) ∧
    exec_rmdir entries path = (-13, entries) ∧
    exec_unlink entries path = (-13, entries) ∧
    exec_rename entries path target = (-13, entries) ∧
    exec_setxattr entries path name value flags = (-13, entries) ∧
    exec_removexattr entries path name = (-13, entries) :=
  ⟨rfl, rfl, rfl, rfl, rfl, rfl, rfl, rfl, rfl, rfl, rfl⟩

/-- Helper: the NOP_STUB body succeeds exactly when the path resolves to
root or to an entry and yields -ENOENT otherwise. -/
lemma nop_stub_resolve (entries : List entry_t) (path : String) :
    ((resolve entries path = Resolution.Root ∨
        (∃ e, resolve entries path = Resolution.Ent e)) →
      nop_stub entries path = 0) ∧
    (resolve entries path = Resolution.NotFound →
      nop_stub entries path = -2) := by
  constructor
  · intro h
    unfold nop_stub
    rcases h with h | ⟨e, h⟩
    · rw [resolve_root_iff] at h
      rw [if_neg]
      rintro ⟨h1, -⟩
      rw [h] at h1
      exact absurd h1 (by decide)
    · rw [resolve_ent_iff] at h
      rw [if_neg]
      rintro ⟨-, h2⟩
      rw [h.2] at h2
      exact absurd h2 (by simp)
  · intro h
    rw [resolve_notfound_iff] at h
    unfold nop_stub
    rw [if_pos ⟨by unfold is_root; simpa using h.1, h.2⟩]

/-- C10: every speculative-probe handler (truncate, the two timestamp
updates, directory-session close and sync) succeeds as a no-op whenever
the path resolves to root or to an entry, and fails with -ENOENT whenever
it resolves to neither. -/
theorem nop_stubs_resolve_then_succeed (entries : List entry_t)
    (path : String) (datasync : Int) (fi : Option Nat) (sz : Nat)
    (times : Nat × Nat) :
    ((resolve entries path = Resolution.Root ∨
        (∃ e, resolve entries path = Resolution.Ent e)) →
      exec_truncate entries path sz = 0 ∧
      exec_utime entries path times = 0 ∧
      exec_utimens entries path times = 0 ∧
      exec_releasedir entries path fi = 0 ∧
      exec_fsyncdir entries path datasync fi = 0) ∧
    (resolve entries path = Resolution.NotFound →
      exec_truncate entries path sz = -2 ∧
      exec_utime entries path times = -2 ∧
      exec_utimens entries path times = -2 ∧
      exec_releasedir entries path fi = -2 ∧
      exec_fsyncdir entries path datasync fi = -2) := by
  constructor
  · intro h
    have h0 := (nop_stub_resolve entries path).1 h
    exact ⟨h0, h0, h0, h0, h0⟩
  · intro h
    have h0 := (nop_stub_resolve entries path).2 h
    exact ⟨h0, h0, h0, h0, h0⟩

/-- Witness for C10: truncate on a path resolving to an entry succeeds as
a no-op. -/
theorem nop_stubs_resolve_then_succeed_witness :
    exec_truncate [eHello] "/hello" 0 = 0 :=
  ((nop_stubs_resolve_then_succeed [eHello] "/hello" 0 none 0 (0, 0)).1
    (Or.inr ⟨eHello, by decide⟩)).1
